import Mathlib

/-!
Verification of the job-tracking lifecycle of the CrewAI API service
(`api_server.py`): an in-memory registry of job records mutated by REST
handlers and a background runner. The external collaborator chain
(get_crew_class; crew_class(); crew_instance.crew(); crew.kickoff(inputs))
is one opaque fallible call, modelled as an oracle of type
`Inputs → Except String CrewResult`, where the error string is str(e) and
`CrewResult.str` is the str() rendering of the kickoff return value.
Timestamps (datetime.now().isoformat()) and the generated uuid4 identifier
enter the model as parameters; freshness of the identifier is a hypothesis.
-/

set_option maxHeartbeats 1000000

namespace ApiServer

/-- Job status strings used by the service: "pending", "running",
"completed", "failed" (comment at api_server.py line 49). -/
inductive Status where
  | pending
  | running
  | completed
  | failed
deriving DecidableEq, Repr

/-- A job-tracking record: the dict literal built in run_crew (lines
143-150), with the fields of the JobStatus pydantic model (lines 47-53). -/
structure JobRecord where
  job_id : String
  status : Status
  created_at : String
  completed_at : Option String
  result : Option String
  error : Option String
deriving DecidableEq, Repr

/-- The global in-memory registry `jobs = {}` (line 40): a Python dict
keyed by job id, kept in insertion order. -/
abbrev Jobs := List (String × JobRecord)

/-- Opaque input mapping passed to the crew (Python Dict[str, Any]). -/
abbrev Inputs := List (String × String)

/-- The opaque value returned by crew.kickoff, known to this service only
through its str() rendering (line 89 stores str(result)). -/
structure CrewResult where
  str : String

/-- Dict lookup jobs[id] / membership test `id in jobs`. -/
def lookupJob (jobs : Jobs) (id : String) : Option JobRecord :=
  match jobs with
  | [] => none
  | (k, r) :: rest => if k = id then some r else lookupJob rest id

/-- Field assignment jobs[id][...] = ... on an existing entry: rewrite the
entry for `id` in place, leaving every other entry untouched. -/
def modifyJob (jobs : Jobs) (id : String) (f : JobRecord → JobRecord) : Jobs :=
  match jobs with
  | [] => []
  | (k, r) :: rest =>
      if k = id then (k, f r) :: modifyJob rest id f
      else (k, r) :: modifyJob rest id f

/-- Dict insertion jobs[id] = record for a key not yet present: Python
dicts append new keys in insertion order. -/
def insertJob (jobs : Jobs) (id : String) (r : JobRecord) : Jobs :=
  jobs ++ [(id, r)]

/-- Dict deletion `del jobs[id]` (line 198). -/
def eraseJob (jobs : Jobs) (id : String) : Jobs :=
  match jobs with
  | [] => []
  | (k, r) :: rest =>
      if k = id then eraseJob rest id else (k, r) :: eraseJob rest id

/-- Marker for a Python KeyError raised by jobs[job_id] on a missing key. -/
def keyErrorMsg : String := "KeyError"

/-- Line 76: jobs[job_id]["status"] = "running". Returns the updated
registry and true on success; returns the registry unchanged and false
when jobs[job_id] raises KeyError (record absent). -/
def runnerSetRunning (jobs : Jobs) (job_id : String) : Jobs × Bool :=
  match lookupJob jobs job_id with
  | none => (jobs, false)
  | some _ =>
      (modifyJob jobs job_id (fun r => { r with status := Status.running }), true)

/-- Lines 87-98: record the workload outcome into the record. On success
the three writes of lines 88-90 (status, result, completed_at) happen with
no intervening await, so they are one step here; on an exception the
except block (lines 96-98) writes status, error, completed_at. When the
record is absent, the first write raises KeyError, control reaches the
except block, whose own write raises KeyError again: that exception
escapes, returned as `some keyErrorMsg`. -/
def recordOutcome (jobs : Jobs) (job_id : String)
    (outcome : Except String CrewResult) (now : String) : Jobs × Option String :=
  match lookupJob jobs job_id with
  | none => (jobs, some keyErrorMsg)
  | some _ =>
      match outcome with
      | Except.ok result =>
          (modifyJob jobs job_id (fun r =>
            { r with status := Status.completed, result := some result.str,
                     completed_at := some now }), none)
      | Except.error e =>
          (modifyJob jobs job_id (fun r =>
            { r with status := Status.failed, error := some e,
                     completed_at := some now }), none)

/-- Lines 73-98, async def run_crew_job(job_id, inputs): set the record
running, invoke the external workload once, record the outcome. Returns
the new registry, the exception escaping the function (none if all
exceptions were contained), and the trace of argument mappings passed to
the external workload call. When the record is absent, line 76 raises
before the workload is ever invoked, and the except handler re-raises
KeyError out of the function. -/
def run_crew_job (jobs : Jobs) (job_id : String) (inputs : Inputs)
    (workload : Inputs → Except String CrewResult) (now : String) :
    Jobs × Option String × List Inputs :=
  match runnerSetRunning jobs job_id with
  | (jobs1, false) => (jobs1, some keyErrorMsg, [])
  | (jobs1, true) =>
      match recordOutcome jobs1 job_id (workload inputs) now with
      | (jobs2, esc) => (jobs2, esc, [inputs])

/-- An HTTPException(status_code, detail). -/
structure HTTPError where
  code : Nat
  detail : String
deriving DecidableEq, Repr

/-- Response of POST /crew/run (line 156). -/
structure SubmitResponse where
  job_id : String
  status : String
deriving DecidableEq, Repr

/-- The record inserted by run_crew, lines 143-150. -/
def newJobRecord (job_id : String) (now : String) : JobRecord :=
  { job_id := job_id, status := Status.pending, created_at := now,
    completed_at := none, result := none, error := none }

/-- Lines 137-156, POST /crew/run: insert a pending record under the fresh
uuid4 identifier and answer with the identifier and status "started". The
background dispatch of run_crew_job is modelled in the transition system
below. -/
def run_crew (jobs : Jobs) (job_id : String) (now : String) : Jobs × SubmitResponse :=
  (insertJob jobs job_id (newJobRecord job_id now),
   { job_id := job_id, status := "started" })

/-- Lines 158-164, GET /crew/status/id: 404 when absent, else the record
(JobStatus is built from exactly the record fields). -/
def get_job_status (jobs : Jobs) (job_id : String) : Except HTTPError JobRecord :=
  match lookupJob jobs job_id with
  | none => Except.error { code := 404, detail := "Job not found" }
  | some job => Except.ok job

/-- Rendering of an Optional[str] inside a Python f-string: str(None) is
the text "None". -/
def pyStrOpt : Option String → String
  | none => "None"
  | some s => s

/-- Body returned by GET /crew/result/id on success (lines 180-185). -/
structure ResultResponse where
  job_id : String
  status : Status
  result : Option String
  completed_at : Option String
deriving DecidableEq, Repr

/-- Lines 166-185, GET /crew/result/id: 404 when absent; 202 while the
status is pending or running; 500 with the error text when failed; 200
with the result when completed. -/
def get_job_result (jobs : Jobs) (job_id : String) : Except HTTPError ResultResponse :=
  match lookupJob jobs job_id with
  | none => Except.error { code := 404, detail := "Job not found" }
  | some job =>
      if job.status = Status.pending ∨ job.status = Status.running then
        Except.error { code := 202, detail := "Job still running" }
      else if job.status = Status.failed then
        Except.error { code := 500, detail := "Job failed: " ++ pyStrOpt job.error }
      else
        Except.ok { job_id := job_id, status := job.status, result := job.result,
                    completed_at := job.completed_at }

/-- Lines 187-190, GET /crew/jobs: list(jobs.values()). -/
def list_jobs (jobs : Jobs) : List JobRecord :=
  jobs.map Prod.snd

/-- Lines 192-199, DELETE /crew/jobs/id: 404 when absent, else remove the
entry and answer with a confirmation message. -/
def delete_job (jobs : Jobs) (job_id : String) : Except HTTPError (Jobs × String) :=
  match lookupJob jobs job_id with
  | none => Except.error { code := 404, detail := "Job not found" }
  | some _ => Except.ok (eraseJob jobs job_id, "Job deleted successfully")

/-- Body returned by GET /health (both branches answer HTTP 200). -/
structure HealthResponse where
  status : String
  timestamp : String
  crew_loaded : Bool
  crew_class : Option String
  error : Option String
deriving DecidableEq, Repr

/-- Lines 117-135, GET /health: the loader outcome stands for
get_crew_class(), giving the class name or the exception text. Both
branches return a plain 200 response; the handler never raises. -/
def health_check (loader : Except String String) (now : String) :
    Except HTTPError HealthResponse :=
  match loader with
  | Except.ok name =>
      Except.ok { status := "healthy", timestamp := now, crew_loaded := true,
                  crew_class := some name, error := none }
  | Except.error e =>
      Except.ok { status := "unhealthy", timestamp := now, crew_loaded := false,
                  crew_class := none, error := some e }

/-- Body returned by POST /crew/run-sync on success (lines 245-249). -/
structure SyncResponse where
  status : String
  result : String
  timestamp : String
deriving DecidableEq, Repr

/-- Lines 234-252, POST /crew/run-sync: invoke the workload inline and
answer 200 with the stringified result, or 500 on an exception. The
handler body never references the jobs registry, so as a state-passing
handler it returns the registry it was given. -/
def run_crew_sync (jobs : Jobs) (inputs : Inputs)
    (workload : Inputs → Except String CrewResult) (now : String) :
    Jobs × Except HTTPError SyncResponse :=
  match workload inputs with
  | Except.ok result =>
      (jobs, Except.ok { status := "completed", result := result.str, timestamp := now })
  | Except.error e =>
      (jobs, Except.error { code := 500, detail := "Crew execution failed: " ++ e })

/-- Registry state after a DELETE request: the record is removed when
present, nothing changes when the endpoint answers 404. -/
def applyDelete (jobs : Jobs) (job_id : String) : Jobs :=
  match delete_job jobs job_id with
  | Except.ok p => p.1
  | Except.error _ => jobs

/-- Global service state: the registry plus the background-task queue.
`pendingTasks` are job ids whose run_crew_job task was dispatched by
background_tasks.add_task (line 153) but has not begun; `started` are ids
whose task has executed line 76 but not yet lines 87-98. run_crew_job
contains no await between these points, so in the running service the two
phases are never separated by another handler; splitting them here only
adds interleavings, every one of which the invariants below survive. -/
structure SysState where
  jobs : Jobs
  pendingTasks : List String
  started : List String

/-- One step of the service: a POST /crew/run with a fresh uuid4 id, the
background runner reaching line 76, the background runner recording the
workload outcome (lines 87-98), or a DELETE /crew/jobs/id. Pure reads
(status, result, list, health, run-sync) do not change the state. -/
inductive Step : SysState → SysState → Prop where
  | create (s : SysState) (job_id now : String)
      (hfresh : lookupJob s.jobs job_id = none)
      (hp : job_id ∉ s.pendingTasks) (hs : job_id ∉ s.started) :
      Step s { jobs := (run_crew s.jobs job_id now).1,
               pendingTasks := s.pendingTasks ++ [job_id],
               started := s.started }
  | runStart (s : SysState) (job_id : String)
      (hmem : job_id ∈ s.pendingTasks) :
      Step s { jobs := (runnerSetRunning s.jobs job_id).1,
               pendingTasks := s.pendingTasks.erase job_id,
               started := if (runnerSetRunning s.jobs job_id).2
                          then s.started ++ [job_id] else s.started }
  | runFinish (s : SysState) (job_id : String)
      (outcome : Except String CrewResult) (now : String)
      (hmem : job_id ∈ s.started) :
      Step s { jobs := (recordOutcome s.jobs job_id outcome now).1,
               pendingTasks := s.pendingTasks,
               started := s.started.erase job_id }
  | deleteStep (s : SysState) (job_id : String) :
      Step s { jobs := applyDelete s.jobs job_id,
               pendingTasks := s.pendingTasks,
               started := s.started }

/-- States reachable from the empty service (jobs = {}, no tasks). -/
inductive Reachable : SysState → Prop where
  | init : Reachable { jobs := [], pendingTasks := [], started := [] }
  | step {s s' : SysState} : Reachable s → Step s s' → Reachable s'

/-- Per-record shape invariant: the fields each status permits. Pending and
running records have no outcome fields; completed records carry exactly a
result and a completion time; failed records carry exactly an error and a
completion time. -/
def recordInv (r : JobRecord) : Prop :=
  match r.status with
  | Status.pending => r.completed_at = none ∧ r.result = none ∧ r.error = none
  | Status.running => r.completed_at = none ∧ r.result = none ∧ r.error = none
  | Status.completed => r.completed_at ≠ none ∧ r.result ≠ none ∧ r.error = none
  | Status.failed => r.completed_at ≠ none ∧ r.error ≠ none ∧ r.result = none

/-- Global invariant: every stored record satisfies recordInv; a record
whose runner has not started is still pending; a record whose runner is
between line 76 and lines 87-98 is running; the task queues hold no
duplicates and do not overlap. -/
def stateInv (s : SysState) : Prop :=
  (∀ id r, lookupJob s.jobs id = some r → recordInv r) ∧
  (∀ id, id ∈ s.pendingTasks → ∀ r, lookupJob s.jobs id = some r →
    r.status = Status.pending) ∧
  (∀ id, id ∈ s.started → ∀ r, lookupJob s.jobs id = some r →
    r.status = Status.running) ∧
  s.pendingTasks.Nodup ∧ s.started.Nodup ∧
  (∀ id, id ∈ s.pendingTasks → id ∉ s.started)

/-- The transitions a single record status may take in one step: stay put,
pending to running at line 76, or running to a terminal status at lines
87-98 / 96-98. -/
def statusEdge (a b : Status) : Prop :=
  a = b ∨ (a = Status.pending ∧ b = Status.running) ∨
    (a = Status.running ∧ (b = Status.completed ∨ b = Status.failed))

/-- The terminal statuses: completed and failed. -/
def isTerminal (a : Status) : Prop :=
  a = Status.completed ∨ a = Status.failed

/-- Concrete fixture: the record of a job submitted at time t0. -/
def demoRecord : JobRecord := newJobRecord "job-1" "t0"

/-- Concrete fixture: a registry holding exactly the submitted job. -/
def demoJobs : Jobs := [("job-1", demoRecord)]

/-- Concrete fixture: a workload that returns a value rendering as
"crew output". -/
def demoWorkloadOk : Inputs → Except String CrewResult :=
  fun _ => Except.ok { str := "crew output" }

/-- Concrete fixture: a workload that raises an exception rendering as
"boom". -/
def demoWorkloadFail : Inputs → Except String CrewResult :=
  fun _ => Except.error "boom"

/-- Concrete fixture: the service state right after one submission, with
the background task still pending. -/
def demoState : SysState :=
  { jobs := demoJobs, pendingTasks := ["job-1"], started := [] }

/-- Concrete fixture: the record of the submitted job after its runner
completed successfully at time t2. -/
def demoDone : JobRecord :=
  { job_id := "job-1", status := Status.completed, created_at := "t0",
    completed_at := some "t2", result := some "out", error := none }

/-- Concrete fixture: the service state after the submitted job ran to
completion. -/
def demoState2 : SysState :=
  { jobs := [("job-1", demoDone)], pendingTasks := [], started := [] }

/-- Looking up a freshly inserted key finds the inserted record. -/
theorem lookupJob_insertJob_self (jobs : Jobs) (id : String) (r : JobRecord)
    (h : lookupJob jobs id = none) :
    lookupJob (insertJob jobs id r) id = some r := by
  induction jobs with
  | nil => simp [insertJob, lookupJob]
  | cons p rest ih =>
      obtain ⟨k, r0⟩ := p
      by_cases hk : k = id
      · simp [lookupJob, hk] at h
      · simp [lookupJob, hk] at h
        simpa [insertJob, lookupJob, hk] using ih h

/-- Insertion of one key leaves the lookup of any other key unchanged. -/
theorem lookupJob_insertJob_ne (jobs : Jobs) (id id' : String) (r : JobRecord)
    (h : id' ≠ id) :
    lookupJob (insertJob jobs id r) id' = lookupJob jobs id' := by
  induction jobs with
  | nil => simp [insertJob, lookupJob, Ne.symm h]
  | cons p rest ih =>
      obtain ⟨k, r0⟩ := p
      by_cases hk : k = id'
      · simp [insertJob, lookupJob, hk]
      · simpa [insertJob, lookupJob, hk] using ih

/-- In-place modification of a present key is seen by a lookup of that key. -/
theorem lookupJob_modifyJob_self (jobs : Jobs) (id : String)
    (f : JobRecord → JobRecord) (r : JobRecord) (h : lookupJob jobs id = some r) :
    lookupJob (modifyJob jobs id f) id = some (f r) := by
  induction jobs with
  | nil => simp [lookupJob] at h
  | cons p rest ih =>
      obtain ⟨k, r0⟩ := p
      by_cases hk : k = id
      · simp [lookupJob, hk] at h
        simp [modifyJob, lookupJob, hk, h]
      · simp [lookupJob, hk] at h
        simpa [modifyJob, lookupJob, hk] using ih h

/-- In-place modification of one key leaves every other lookup unchanged. -/
theorem lookupJob_modifyJob_ne (jobs : Jobs) (id id' : String)
    (f : JobRecord → JobRecord) (h : id' ≠ id) :
    lookupJob (modifyJob jobs id f) id' = lookupJob jobs id' := by
  induction jobs with
  | nil => simp [modifyJob]
  | cons p rest ih =>
      obtain ⟨k, r0⟩ := p
      by_cases hk : k = id
      · subst hk
        simpa [modifyJob, lookupJob, Ne.symm h] using ih
      · by_cases hk' : k = id'
        · simp [modifyJob, lookupJob, hk, hk', h]
        · simpa [modifyJob, lookupJob, hk, hk'] using ih

/-- Modifying an absent key does nothing. -/
theorem modifyJob_of_lookup_none (jobs : Jobs) (id : String)
    (f : JobRecord → JobRecord) (h : lookupJob jobs id = none) :
    modifyJob jobs id f = jobs := by
  induction jobs with
  | nil => simp [modifyJob]
  | cons p rest ih =>
      obtain ⟨k, r0⟩ := p
      by_cases hk : k = id
      · simp [lookupJob, hk] at h
      · simp [lookupJob, hk] at h
        simp [modifyJob, hk]
        exact ih h

/-- A deleted key is no longer found. -/
theorem lookupJob_eraseJob_self (jobs : Jobs) (id : String) :
    lookupJob (eraseJob jobs id) id = none := by
  induction jobs with
  | nil => simp [eraseJob, lookupJob]
  | cons p rest ih =>
      obtain ⟨k, r0⟩ := p
      by_cases hk : k = id
      · simpa [eraseJob, lookupJob, hk] using ih
      · simpa [eraseJob, lookupJob, hk] using ih

/-- Deleting one key leaves the lookup of any other key unchanged. -/
theorem lookupJob_eraseJob_ne (jobs : Jobs) (id id' : String) (h : id' ≠ id) :
    lookupJob (eraseJob jobs id) id' = lookupJob jobs id' := by
  induction jobs with
  | nil => simp [eraseJob, lookupJob]
  | cons p rest ih =>
      obtain ⟨k, r0⟩ := p
      by_cases hk : k = id
      · subst hk
        simpa [eraseJob, lookupJob, Ne.symm h] using ih
      · by_cases hk' : k = id'
        · simp [eraseJob, lookupJob, hk, hk', h]
        · simpa [eraseJob, lookupJob, hk, hk'] using ih

/-- A record found in the registry appears in the list endpoint output. -/
theorem mem_list_jobs_of_lookup (jobs : Jobs) (id : String) (r : JobRecord)
    (h : lookupJob jobs id = some r) : r ∈ list_jobs jobs := by
  induction jobs with
  | nil => simp [lookupJob] at h
  | cons p rest ih =>
      obtain ⟨k, r0⟩ := p
      by_cases hk : k = id
      · simp [lookupJob, hk] at h
        simp [list_jobs, h]
      · simp [lookupJob, hk] at h
        simp [list_jobs]
        right
        simpa [list_jobs] using ih h

/-- Case equation: runnerSetRunning on an absent record raises (returns false). -/
theorem runnerSetRunning_absent (jobs : Jobs) (job_id : String)
    (h : lookupJob jobs job_id = none) :
    runnerSetRunning jobs job_id = (jobs, false) := by
  simp [runnerSetRunning, h]

/-- Case equation: runnerSetRunning on a present record sets it running. -/
theorem runnerSetRunning_present (jobs : Jobs) (job_id : String) (r : JobRecord)
    (h : lookupJob jobs job_id = some r) :
    runnerSetRunning jobs job_id =
      (modifyJob jobs job_id (fun r => { r with status := Status.running }), true) := by
  simp [runnerSetRunning, h]

/-- Case equation: recordOutcome on an absent record lets KeyError escape. -/
theorem recordOutcome_absent (jobs : Jobs) (job_id : String)
    (outcome : Except String CrewResult) (now : String)
    (h : lookupJob jobs job_id = none) :
    recordOutcome jobs job_id outcome now = (jobs, some keyErrorMsg) := by
  simp [recordOutcome, h]

/-- Case equation: recordOutcome on success marks the record completed. -/
theorem recordOutcome_ok (jobs : Jobs) (job_id : String) (v : CrewResult)
    (now : String) (r : JobRecord) (h : lookupJob jobs job_id = some r) :
    recordOutcome jobs job_id (Except.ok v) now =
      (modifyJob jobs job_id (fun r =>
        { r with status := Status.completed, result := some v.str,
                 completed_at := some now }), none) := by
  simp [recordOutcome, h]

/-- Case equation: recordOutcome on an exception marks the record failed. -/
theorem recordOutcome_exn (jobs : Jobs) (job_id : String) (e : String)
    (now : String) (r : JobRecord) (h : lookupJob jobs job_id = some r) :
    recordOutcome jobs job_id (Except.error e) now =
      (modifyJob jobs job_id (fun r =>
        { r with status := Status.failed, error := some e,
                 completed_at := some now }), none) := by
  simp [recordOutcome, h]

/-- Case equation: deleting an absent id leaves the registry unchanged. -/
theorem applyDelete_absent (jobs : Jobs) (job_id : String)
    (h : lookupJob jobs job_id = none) : applyDelete jobs job_id = jobs := by
  simp [applyDelete, delete_job, h]

/-- Case equation: deleting a present id erases its entry. -/
theorem applyDelete_present (jobs : Jobs) (job_id : String) (r : JobRecord)
    (h : lookupJob jobs job_id = some r) :
    applyDelete jobs job_id = eraseJob jobs job_id := by
  simp [applyDelete, delete_job, h]

/-- The global invariant is preserved by every step of the service. -/
theorem stateInv_step {s s' : SysState} (hinv : stateInv s) (hst : Step s s') :
    stateInv s' := by
  obtain ⟨hrec, hpend, hstart, hnp, hns, hdisj⟩ := hinv
  cases hst with
  | create job_id now hfresh hp hs =>
      refine ⟨?_, ?_, ?_, ?_, ?_, ?_⟩
      · intro id r hl
        by_cases hid : id = job_id
        · subst hid
          rw [show (run_crew s.jobs id now).1 = insertJob s.jobs id (newJobRecord id now)
                from rfl, lookupJob_insertJob_self _ _ _ hfresh] at hl
          injection hl with hh
          rw [← hh]
          simp [recordInv, newJobRecord]
        · rw [show (run_crew s.jobs job_id now).1
                = insertJob s.jobs job_id (newJobRecord job_id now) from rfl,
              lookupJob_insertJob_ne _ _ _ _ hid] at hl
          exact hrec id r hl
      · intro id hid r hl
        rcases List.mem_append.mp hid with hid' | hid'
        · have hne : id ≠ job_id := fun hh => hp (hh ▸ hid')
          rw [show (run_crew s.jobs job_id now).1
                = insertJob s.jobs job_id (newJobRecord job_id now) from rfl,
              lookupJob_insertJob_ne _ _ _ _ hne] at hl
          exact hpend id hid' r hl
        · have hid2 : id = job_id := by simpa using hid'
          subst hid2
          rw [show (run_crew s.jobs id now).1 = insertJob s.jobs id (newJobRecord id now)
                from rfl, lookupJob_insertJob_self _ _ _ hfresh] at hl
          injection hl with hh
          rw [← hh]
          simp [newJobRecord]
      · intro id hid r hl
        have hne : id ≠ job_id := fun hh => hs (hh ▸ hid)
        rw [show (run_crew s.jobs job_id now).1
              = insertJob s.jobs job_id (newJobRecord job_id now) from rfl,
            lookupJob_insertJob_ne _ _ _ _ hne] at hl
        exact hstart id hid r hl
      · simp only [List.nodup_append, List.nodup_cons, List.nodup_nil]
        refine ⟨hnp, by simp, ?_⟩
        intro a ha
        simp only [List.mem_singleton]
        intro hh
        exact hp (hh ▸ ha)
      · exact hns
      · intro id hid
        rcases List.mem_append.mp hid with hid' | hid'
        · exact hdisj id hid'
        · have hid2 : id = job_id := by simpa using hid'
          exact hid2 ▸ hs
  | runStart job_id hmem =>
      rcases hl0 : lookupJob s.jobs job_id with _ | r0
      · have hss := runnerSetRunning_absent s.jobs job_id hl0
        refine ⟨?_, ?_, ?_, ?_, ?_, ?_⟩
        · intro id r hl
          rw [hss] at hl
          exact hrec id r hl
        · intro id hid r hl
          rw [hss] at hl
          exact hpend id (List.mem_of_mem_erase hid) r hl
        · intro id hid r hl
          rw [hss] at hid hl
          simp only at hid
          exact hstart id hid r hl
        · exact hnp.erase job_id
        · rw [hss]
          exact hns
        · intro id hid
          rw [hss]
          simp only
          exact hdisj id (List.mem_of_mem_erase hid)
      · have hss := runnerSetRunning_present s.jobs job_id r0 hl0
        have hr0 : r0.status = Status.pending := hpend job_id hmem r0 hl0
        have hjs : job_id ∉ s.started := hdisj job_id hmem
        refine ⟨?_, ?_, ?_, ?_, ?_, ?_⟩
        · intro id r hl
          rw [hss] at hl
          by_cases hid : id = job_id
          · subst hid
            rw [lookupJob_modifyJob_self _ _ _ _ hl0] at hl
            injection hl with hh
            rw [← hh]
            have := hrec id r0 hl0
            rw [recordInv, hr0] at this
            simp only [recordInv]
            exact this
          · rw [lookupJob_modifyJob_ne _ _ _ _ hid] at hl
            exact hrec id r hl
        · intro id hid r hl
          rw [hss] at hid hl
          simp only at hid
          have hid' : id ≠ job_id ∧ id ∈ s.pendingTasks :=
            (List.Nodup.mem_erase_iff hnp).mp hid
          rw [lookupJob_modifyJob_ne _ _ _ _ hid'.1] at hl
          exact hpend id hid'.2 r hl
        · intro id hid r hl
          rw [hss] at hid hl
          simp only [if_true] at hid
          rcases List.mem_append.mp hid with hid' | hid'
          · have hne : id ≠ job_id := fun hh => hjs (hh ▸ hid')
            rw [lookupJob_modifyJob_ne _ _ _ _ hne] at hl
            exact hstart id hid' r hl
          · have hid2 : id = job_id := by simpa using hid'
            subst hid2
            rw [lookupJob_modifyJob_self _ _ _ _ hl0] at hl
            injection hl with hh
            rw [← hh]
        · exact hnp.erase job_id
        · rw [hss]
          simp only [if_true, List.nodup_append, List.nodup_cons, List.nodup_nil]
          refine ⟨hns, by simp, ?_⟩
          intro a ha
          simp only [List.mem_singleton]
          intro hh
          exact hjs (hh ▸ ha)
        · intro id hid
          rw [hss]
          rw [hss] at hid
          simp only [if_true] at hid ⊢
          have hid' : id ≠ job_id ∧ id ∈ s.pendingTasks :=
            (List.Nodup.mem_erase_iff hnp).mp hid
          intro hcon
          rcases List.mem_append.mp hcon with hcon' | hcon'
          · exact hdisj id hid'.2 hcon'
          · exact hid'.1 (by simpa using hcon')
  | runFinish job_id outcome now hmem =>
      rcases hl0 : lookupJob s.jobs job_id with _ | r0
      · have hss := recordOutcome_absent s.jobs job_id outcome now hl0
        refine ⟨?_, ?_, ?_, ?_, ?_, ?_⟩
        · intro id r hl
          rw [hss] at hl
          exact hrec id r hl
        · intro id hid r hl
          rw [hss] at hl
          exact hpend id hid r hl
        · intro id hid r hl
          rw [hss] at hl
          exact hstart id (List.mem_of_mem_erase hid) r hl
        · exact hnp
        · exact hns.erase job_id
        · intro id hid hcon
          exact hdisj id hid (List.mem_of_mem_erase hcon)
      · have hr0 : r0.status = Status.running := hstart job_id hmem r0 hl0
        have hinv0 := hrec job_id r0 hl0
        rw [recordInv, hr0] at hinv0
        obtain ⟨hc0, hres0, herr0⟩ := hinv0
        have hnmem : job_id ∉ s.pendingTasks := fun hh => hdisj job_id hh hmem
        cases outcome with
        | ok v =>
            have hss := recordOutcome_ok s.jobs job_id v now r0 hl0
            refine ⟨?_, ?_, ?_, ?_, ?_, ?_⟩
            · intro id r hl
              rw [hss] at hl
              by_cases hid : id = job_id
              · subst hid
                rw [lookupJob_modifyJob_self _ _ _ _ hl0] at hl
                injection hl with hh
                rw [← hh]
                simp [recordInv, herr0]
              · rw [lookupJob_modifyJob_ne _ _ _ _ hid] at hl
                exact hrec id r hl
            · intro id hid r hl
              rw [hss] at hl
              have hne : id ≠ job_id := fun hh => hnmem (hh ▸ hid)
              rw [lookupJob_modifyJob_ne _ _ _ _ hne] at hl
              exact hpend id hid r hl
            · intro id hid r hl
              rw [hss] at hl
              have hid' : id ≠ job_id ∧ id ∈ s.started :=
                (List.Nodup.mem_erase_iff hns).mp hid
              rw [lookupJob_modifyJob_ne _ _ _ _ hid'.1] at hl
              exact hstart id hid'.2 r hl
            · exact hnp
            · exact hns.erase job_id
            · intro id hid hcon
              exact hdisj id hid (List.mem_of_mem_erase hcon)
        | error e =>
            have hss := recordOutcome_exn s.jobs job_id e now r0 hl0
            refine ⟨?_, ?_, ?_, ?_, ?_, ?_⟩
            · intro id r hl
              rw [hss] at hl
              by_cases hid : id = job_id
              · subst hid
                rw [lookupJob_modifyJob_self _ _ _ _ hl0] at hl
                injection hl with hh
                rw [← hh]
                simp [recordInv, hres0]
              · rw [lookupJob_modifyJob_ne _ _ _ _ hid] at hl
                exact hrec id r hl
            · intro id hid r hl
              rw [hss] at hl
              have hne : id ≠ job_id := fun hh => hnmem (hh ▸ hid)
              rw [lookupJob_modifyJob_ne _ _ _ _ hne] at hl
              exact hpend id hid r hl
            · intro id hid r hl
              rw [hss] at hl
              have hid' : id ≠ job_id ∧ id ∈ s.started :=
                (List.Nodup.mem_erase_iff hns).mp hid
              rw [lookupJob_modifyJob_ne _ _ _ _ hid'.1] at hl
              exact hstart id hid'.2 r hl
            · exact hnp
            · exact hns.erase job_id
            · intro id hid hcon
              exact hdisj id hid (List.mem_of_mem_erase hcon)
  | deleteStep job_id =>
      rcases hl0 : lookupJob s.jobs job_id with _ | r0
      · have hss := applyDelete_absent s.jobs job_id hl0
        refine ⟨?_, ?_, ?_, ?_, ?_, ?_⟩
        · intro id r hl
          rw [hss] at hl
          exact hrec id r hl
        · intro id hid r hl
          rw [hss] at hl
          exact hpend id hid r hl
        · intro id hid r hl
          rw [hss] at hl
          exact hstart id hid r hl
        · exact hnp
        · exact hns
        · exact hdisj
      · have hss := applyDelete_present s.jobs job_id r0 hl0
        refine ⟨?_, ?_, ?_, ?_, ?_, ?_⟩
        · intro id r hl
          rw [hss] at hl
          by_cases hid : id = job_id
          · subst hid
            rw [lookupJob_eraseJob_self] at hl
            cases hl
          · rw [lookupJob_eraseJob_ne _ _ _ hid] at hl
            exact hrec id r hl
        · intro id hid r hl
          rw [hss] at hl
          by_cases hid2 : id = job_id
          · subst hid2
            rw [lookupJob_eraseJob_self] at hl
            cases hl
          · rw [lookupJob_eraseJob_ne _ _ _ hid2] at hl
            exact hpend id hid r hl
        · intro id hid r hl
          rw [hss] at hl
          by_cases hid2 : id = job_id
          · subst hid2
            rw [lookupJob_eraseJob_self] at hl
            cases hl
          · rw [lookupJob_eraseJob_ne _ _ _ hid2] at hl
            exact hstart id hid r hl
        · exact hnp
        · exact hns
        · exact hdisj

/-- Every reachable service state satisfies the global invariant. -/
theorem reachable_stateInv {s : SysState} (h : Reachable s) : stateInv s := by
  induction h with
  | init =>
      refine ⟨?_, ?_, ?_, ?_, ?_, ?_⟩ <;> simp [lookupJob]
  | step hr hst ih => exact stateInv_step ih hst

/-- C4: the result-fetch endpoint decides by exact case analysis on the
record: 404 when no record exists for the identifier; 202 when the status
is pending or running; 500 carrying the error text when failed; 200 with
the result when completed. -/
theorem result_endpoint_cases (jobs : Jobs) (job_id : String) :
    (lookupJob jobs job_id = none →
      get_job_result jobs job_id
        = Except.error { code := 404, detail := "Job not found" }) ∧
    (∀ r, lookupJob jobs job_id = some r →
      ((r.status = Status.pending ∨ r.status = Status.running) →
        get_job_result jobs job_id
          = Except.error { code := 202, detail := "Job still running" }) ∧
      (r.status = Status.failed →
        get_job_result jobs job_id
          = Except.error { code := 500,
                           detail := "Job failed: " ++ pyStrOpt r.error }) ∧
      (r.status = Status.completed →
        get_job_result jobs job_id
          = Except.ok { job_id := job_id, status := r.status, result := r.result,
                        completed_at := r.completed_at })) := by
  constructor
  · intro h
    simp [get_job_result, h]
  · intro r h
    refine ⟨?_, ?_, ?_⟩
    · intro hst
      rcases hst with hst | hst <;> simp [get_job_result, h, hst]
    · intro hst
      simp [get_job_result, h, hst]
    · intro hst
      simp [get_job_result, h, hst]

/-- Witness for C4 at concrete inputs: the unknown id "missing-123" yields
404 on the empty registry, and a completed record yields 200 with its
result. -/
theorem result_endpoint_cases_witness :
    get_job_result [] "missing-123"
      = Except.error { code := 404, detail := "Job not found" } ∧
    get_job_result [("job-1", demoDone)] "job-1"
      = Except.ok { job_id := "job-1", status := demoDone.status,
                    result := demoDone.result,
                    completed_at := demoDone.completed_at } :=
  ⟨(result_endpoint_cases [] "missing-123").1 rfl,
   ((result_endpoint_cases [("job-1", demoDone)] "job-1").2 demoDone
      (by decide)).2.2 rfl⟩

/-- C8: delete removes a present record and answers 404 on an absent id,
and after a successful delete a status query on the same id answers 404. -/
theorem delete_then_get (jobs : Jobs) (job_id : String) :
    (lookupJob jobs job_id = none →
      delete_job jobs job_id
        = Except.error { code := 404, detail := "Job not found" }) ∧
    (∀ r, lookupJob jobs job_id = some r →
      delete_job jobs job_id
        = Except.ok (eraseJob jobs job_id, "Job deleted successfully") ∧
      lookupJob (eraseJob jobs job_id) job_id = none ∧
      get_job_status (eraseJob jobs job_id) job_id
        = Except.error { code := 404, detail := "Job not found" }) := by
  constructor
  · intro h
    simp [delete_job, h]
  · intro r h
    refine ⟨by simp [delete_job, h], lookupJob_eraseJob_self jobs job_id, ?_⟩
    simp [get_job_status, lookupJob_eraseJob_self]

/-- Witness for C8 at a concrete registry: deleting the stored job answers
with the confirmation message, and a subsequent status query answers 404. -/
theorem delete_then_get_witness :
    delete_job demoJobs "job-1" = Except.ok ([], "Job deleted successfully") ∧
    get_job_status (eraseJob demoJobs "job-1") "job-1"
      = Except.error { code := 404, detail := "Job not found" } := by
  obtain ⟨h1, h2, h3⟩ := (delete_then_get demoJobs "job-1").2 demoRecord (by decide)
  refine ⟨?_, h3⟩
  rw [h1]
  rfl

/-- C9: the health endpoint always returns a 200 response: with status
"healthy" and crew_loaded true when the workload provider loads, and with
status "unhealthy", crew_loaded false and the error text when loading
raises. -/
theorem health_check_never_fails (loader : Except String String) (now : String) :
    (∃ resp, health_check loader now = Except.ok resp) ∧
    (∀ name, loader = Except.ok name →
      health_check loader now
        = Except.ok { status := "healthy", timestamp := now, crew_loaded := true,
                      crew_class := some name, error := none }) ∧
    (∀ e, loader = Except.error e →
      health_check loader now
        = Except.ok { status := "unhealthy", timestamp := now,
                      crew_loaded := false, crew_class := none,
                      error := some e }) := by
  refine ⟨?_, ?_, ?_⟩
  · cases loader with
    | ok name => exact ⟨_, rfl⟩
    | error e => exact ⟨_, rfl⟩
  · intro name h
    subst h
    rfl
  · intro e h
    subst h
    rfl

/-- Witness for C9 at concrete loader outcomes: a loaded crew class and a
load failure. -/
theorem health_check_never_fails_witness :
    health_check (Except.ok "MarketingPostsCrew") "t0"
      = Except.ok { status := "healthy", timestamp := "t0", crew_loaded := true,
                    crew_class := some "MarketingPostsCrew", error := none } ∧
    health_check (Except.error "boom") "t0"
      = Except.ok { status := "unhealthy", timestamp := "t0",
                    crew_loaded := false, crew_class := none,
                    error := some "boom" } :=
  ⟨(health_check_never_fails (Except.ok "MarketingPostsCrew") "t0").2.1
      "MarketingPostsCrew" rfl,
   (health_check_never_fails (Except.error "boom") "t0").2.2 "boom" rfl⟩

/-- C10: the synchronous endpoint leaves the registry unchanged in both
outcomes, answering 200 with the stringified result on success and 500
with the error text on an exception; status, result and list queries are
unaffected. -/
theorem sync_run_frame (jobs : Jobs) (inputs : Inputs)
    (workload : Inputs → Except String CrewResult) (now : String) :
    (run_crew_sync jobs inputs workload now).1 = jobs ∧
    (∀ v, workload inputs = Except.ok v →
      (run_crew_sync jobs inputs workload now).2
        = Except.ok { status := "completed", result := v.str, timestamp := now }) ∧
    (∀ e, workload inputs = Except.error e →
      (run_crew_sync jobs inputs workload now).2
        = Except.error { code := 500,
                         detail := "Crew execution failed: " ++ e }) ∧
    (∀ id, get_job_status (run_crew_sync jobs inputs workload now).1 id
      = get_job_status jobs id) ∧
    (∀ id, get_job_result (run_crew_sync jobs inputs workload now).1 id
      = get_job_result jobs id) ∧
    list_jobs (run_crew_sync jobs inputs workload now).1 = list_jobs jobs := by
  have h1 : (run_crew_sync jobs inputs workload now).1 = jobs := by
    cases hw : workload inputs <;> simp [run_crew_sync, hw]
  refine ⟨h1, ?_, ?_, fun id => by rw [h1], fun id => by rw [h1], by rw [h1]⟩
  · intro v hv
    simp [run_crew_sync, hv]
  · intro e he
    simp [run_crew_sync, he]

/-- Witness for C10 at a concrete registry and a succeeding workload: the
registry is returned unchanged and the response carries the stringified
result. -/
theorem sync_run_frame_witness :
    (run_crew_sync demoJobs [] demoWorkloadOk "t1").1 = demoJobs ∧
    (run_crew_sync demoJobs [] demoWorkloadOk "t1").2
      = Except.ok { status := "completed", result := "crew output",
                    timestamp := "t1" } := by
  obtain ⟨h1, h2, -, -, -, -⟩ := sync_run_frame demoJobs [] demoWorkloadOk "t1"
  exact ⟨h1, h2 { str := "crew output" } rfl⟩

/-- Counterexample to C5: when the record was already deleted (here the
registry is empty after a submit-then-delete round trip), run_crew_job
does not contain the failure: line 76 raises KeyError, the except handler
at line 96 raises KeyError again, and that exception escapes the runner
function. -/
theorem runner_escape_on_deleted :
    delete_job (run_crew [] "job-1" "t0").1 "job-1"
      = Except.ok ([], "Job deleted successfully") ∧
    (run_crew_job [] "job-1" [] demoWorkloadOk "t1").2.1 = some keyErrorMsg := by
  constructor
  · rfl
  · rfl

/-- C1: for a job id with a record in the registry, the runner first sets
the record to running, invokes the external workload entry point exactly
once (a one-element call trace), lets no exception escape, and records the
outcome: on normal return the record becomes completed with the str()
rendering of the returned value in the result field and completed_at set
to the current time; on any exception it becomes failed with the exception
text in the error field and completed_at set to the current time. -/
theorem runner_executes_once (jobs : Jobs) (job_id : String) (inputs : Inputs)
    (workload : Inputs → Except String CrewResult) (now : String) (r : JobRecord)
    (h : lookupJob jobs job_id = some r) :
    lookupJob (runnerSetRunning jobs job_id).1 job_id
      = some { r with status := Status.running } ∧
    (run_crew_job jobs job_id inputs workload now).2.2 = [inputs] ∧
    (run_crew_job jobs job_id inputs workload now).2.1 = none ∧
    (∀ v, workload inputs = Except.ok v →
      lookupJob (run_crew_job jobs job_id inputs workload now).1 job_id
        = some { r with status := Status.completed, result := some v.str,
                        completed_at := some now }) ∧
    (∀ e, workload inputs = Except.error e →
      lookupJob (run_crew_job jobs job_id inputs workload now).1 job_id
        = some { r with status := Status.failed, error := some e,
                        completed_at := some now }) := by
  have hss := runnerSetRunning_present jobs job_id r h
  have hl1 := lookupJob_modifyJob_self jobs job_id
      (fun r => { r with status := Status.running }) r h
  refine ⟨by rw [hss]; exact hl1, ?_, ?_, ?_, ?_⟩
  · cases hw : workload inputs with
    | ok v => simp [run_crew_job, hss, hw, recordOutcome_ok _ _ _ _ _ hl1]
    | error e => simp [run_crew_job, hss, hw, recordOutcome_exn _ _ _ _ _ hl1]
  · cases hw : workload inputs with
    | ok v => simp [run_crew_job, hss, hw, recordOutcome_ok _ _ _ _ _ hl1]
    | error e => simp [run_crew_job, hss, hw, recordOutcome_exn _ _ _ _ _ hl1]
  · intro v hw
    have hl2 := lookupJob_modifyJob_self
        (modifyJob jobs job_id (fun r => { r with status := Status.running }))
        job_id
        (fun r => { r with status := Status.completed, result := some v.str,
                           completed_at := some now })
        { r with status := Status.running } hl1
    simp [run_crew_job, hss, hw, recordOutcome_ok _ _ _ _ _ hl1, hl2]
  · intro e hw
    have hl2 := lookupJob_modifyJob_self
        (modifyJob jobs job_id (fun r => { r with status := Status.running }))
        job_id
        (fun r => { r with status := Status.failed, error := some e,
                           completed_at := some now })
        { r with status := Status.running } hl1
    simp [run_crew_job, hss, hw, recordOutcome_exn _ _ _ _ _ hl1, hl2]

/-- Witness for C1 at a concrete registry and a succeeding workload: the
call trace has exactly one entry, nothing escapes, and the record ends
completed with the rendered result and the completion time. -/
theorem runner_executes_once_witness :
    (run_crew_job demoJobs "job-1" [] demoWorkloadOk "t1").2.2 = [[]] ∧
    (run_crew_job demoJobs "job-1" [] demoWorkloadOk "t1").2.1 = none ∧
    lookupJob (run_crew_job demoJobs "job-1" [] demoWorkloadOk "t1").1 "job-1"
      = some { demoRecord with status := Status.completed,
                               result := some "crew output",
                               completed_at := some "t1" } := by
  obtain ⟨-, h2, h3, h4, -⟩ :=
    runner_executes_once demoJobs "job-1" [] demoWorkloadOk "t1" demoRecord
      (by decide)
  exact ⟨h2, h3, h4 { str := "crew output" } rfl⟩

/-- C5 as amended: provided the record still exists when the runner
executes, every exception from the external call is contained, recorded
only in that record (every other id reads back unchanged); when the record
was already deleted the containment fails (see the counterexample). -/
theorem runner_contained_when_present (jobs : Jobs) (job_id : String)
    (inputs : Inputs) (workload : Inputs → Except String CrewResult)
    (now : String) (r : JobRecord) (h : lookupJob jobs job_id = some r) :
    (run_crew_job jobs job_id inputs workload now).2.1 = none ∧
    (∀ id', id' ≠ job_id →
      lookupJob (run_crew_job jobs job_id inputs workload now).1 id'
        = lookupJob jobs id') := by
  have hss := runnerSetRunning_present jobs job_id r h
  have hl1 := lookupJob_modifyJob_self jobs job_id
      (fun r => { r with status := Status.running }) r h
  constructor
  · cases hw : workload inputs with
    | ok v => simp [run_crew_job, hss, hw, recordOutcome_ok _ _ _ _ _ hl1]
    | error e => simp [run_crew_job, hss, hw, recordOutcome_exn _ _ _ _ _ hl1]
  · intro id' hne
    cases hw : workload inputs with
    | ok v =>
        simp [run_crew_job, hss, hw, recordOutcome_ok _ _ _ _ _ hl1,
              lookupJob_modifyJob_ne _ _ _ _ hne]
    | error e =>
        simp [run_crew_job, hss, hw, recordOutcome_exn _ _ _ _ _ hl1,
              lookupJob_modifyJob_ne _ _ _ _ hne]

/-- Witness for the amended C5 at a concrete registry and a raising
workload: no exception escapes the runner and an unrelated id reads back
unchanged. -/
theorem runner_contained_when_present_witness :
    (run_crew_job demoJobs "job-1" [] demoWorkloadFail "t1").2.1 = none ∧
    lookupJob (run_crew_job demoJobs "job-1" [] demoWorkloadFail "t1").1 "other"
      = lookupJob demoJobs "other" :=
  ⟨(runner_contained_when_present demoJobs "job-1" [] demoWorkloadFail "t1"
      demoRecord (by decide)).1,
   (runner_contained_when_present demoJobs "job-1" [] demoWorkloadFail "t1"
      demoRecord (by decide)).2 "other" (by decide)⟩

/-- C6: submission under a fresh identifier answers with the identifier
and status "started", inserts a pending record with created_at set to the
current time and completed_at, result, error all null, makes the record
immediately visible to get and list, and an immediate status query
observes pending (hence pending or running, never a terminal status). -/
theorem submit_creates_pending (jobs : Jobs) (job_id now : String)
    (hfresh : lookupJob jobs job_id = none) :
    (run_crew jobs job_id now).2 = { job_id := job_id, status := "started" } ∧
    lookupJob (run_crew jobs job_id now).1 job_id
      = some (newJobRecord job_id now) ∧
    (newJobRecord job_id now).status = Status.pending ∧
    (newJobRecord job_id now).created_at = now ∧
    (newJobRecord job_id now).completed_at = none ∧
    (newJobRecord job_id now).result = none ∧
    (newJobRecord job_id now).error = none ∧
    newJobRecord job_id now ∈ list_jobs (run_crew jobs job_id now).1 ∧
    get_job_status (run_crew jobs job_id now).1 job_id
      = Except.ok (newJobRecord job_id now) ∧
    ((newJobRecord job_id now).status = Status.pending ∨
      (newJobRecord job_id now).status = Status.running) ∧
    ¬isTerminal (newJobRecord job_id now).status := by
  have hl := lookupJob_insertJob_self jobs job_id (newJobRecord job_id now) hfresh
  refine ⟨rfl, hl, rfl, rfl, rfl, rfl, rfl, ?_, ?_, Or.inl rfl, ?_⟩
  · exact mem_list_jobs_of_lookup _ _ _ hl
  · simp [get_job_status, run_crew, hl]
  · simp [isTerminal, newJobRecord]

/-- Witness for C6 at the empty registry: submitting "job-1" at time t0
stores the pending record and the status endpoint returns it. -/
theorem submit_creates_pending_witness :
    (run_crew [] "job-1" "t0").2 = { job_id := "job-1", status := "started" } ∧
    lookupJob (run_crew [] "job-1" "t0").1 "job-1"
      = some (newJobRecord "job-1" "t0") ∧
    get_job_status (run_crew [] "job-1" "t0").1 "job-1"
      = Except.ok (newJobRecord "job-1" "t0") := by
  obtain ⟨h1, h2, -, -, -, -, -, -, h9, -, -⟩ :=
    submit_creates_pending [] "job-1" "t0" rfl
  exact ⟨h1, h2, h9⟩

/-- The one-submission fixture state is reachable. -/
theorem reachable_demoState : Reachable demoState :=
  Reachable.step Reachable.init
    (Step.create { jobs := [], pendingTasks := [], started := [] } "job-1" "t0"
      rfl (by simp) (by simp))

/-- The completed-job fixture state is reachable: submit, start the
runner, record a successful outcome. -/
theorem reachable_demoState2 : Reachable demoState2 := by
  have h1 : Reachable demoState := reachable_demoState
  have h2 := Reachable.step h1 (Step.runStart demoState "job-1" (by decide))
  have h3 := Reachable.step h2
    (Step.runFinish _ "job-1" (Except.ok { str := "out" }) "t2" (by decide))
  exact h3

/-- C2: in every reachable registry state, no record has both result and
error populated; every terminal record has exactly one of them populated;
and a populated result or error forces a populated completed_at. -/
theorem result_error_exclusive (s : SysState) (hs : Reachable s) (id : String)
    (r : JobRecord) (h : lookupJob s.jobs id = some r) :
    ¬(r.result ≠ none ∧ r.error ≠ none) ∧
    ((r.status = Status.completed ∨ r.status = Status.failed) →
      (r.result ≠ none ∧ r.error = none) ∨
        (r.error ≠ none ∧ r.result = none)) ∧
    ((r.result ≠ none ∨ r.error ≠ none) → r.completed_at ≠ none) := by
  have hri := (reachable_stateInv hs).1 id r h
  cases hstat : r.status with
  | pending =>
      rw [recordInv, hstat] at hri
      obtain ⟨h1, h2, h3⟩ := hri
      refine ⟨fun hc => hc.1 h2, fun hterm => ?_, fun hor => ?_⟩
      · rcases hterm with hc | hc <;> exact Status.noConfusion hc
      · rcases hor with ha | hb
        · exact absurd h2 ha
        · exact absurd h3 hb
  | running =>
      rw [recordInv, hstat] at hri
      obtain ⟨h1, h2, h3⟩ := hri
      refine ⟨fun hc => hc.1 h2, fun hterm => ?_, fun hor => ?_⟩
      · rcases hterm with hc | hc <;> exact Status.noConfusion hc
      · rcases hor with ha | hb
        · exact absurd h2 ha
        · exact absurd h3 hb
  | completed =>
      rw [recordInv, hstat] at hri
      obtain ⟨h1, h2, h3⟩ := hri
      exact ⟨fun hc => hc.2 h3, fun _ => Or.inl ⟨h2, h3⟩, fun _ => h1⟩
  | failed =>
      rw [recordInv, hstat] at hri
      obtain ⟨h1, h2, h3⟩ := hri
      exact ⟨fun hc => hc.1 h3, fun _ => Or.inr ⟨h2, h3⟩, fun _ => h1⟩

/-- Witness for C2 at the reachable completed-job state: its record has a
result and no error, and a populated completed_at. -/
theorem result_error_exclusive_witness :
    ¬(demoDone.result ≠ none ∧ demoDone.error ≠ none) ∧
    ((demoDone.result ≠ none ∧ demoDone.error = none) ∨
      (demoDone.error ≠ none ∧ demoDone.result = none)) ∧
    demoDone.completed_at ≠ none := by
  obtain ⟨h1, h2, h3⟩ := result_error_exclusive demoState2 reachable_demoState2
      "job-1" demoDone (by decide)
  exact ⟨h1, h2 (Or.inl rfl), h3 (Or.inl (by decide))⟩

/-- C7: in every reachable registry state, completed_at is null while the
status is pending or running and non-null once it is completed or failed. -/
theorem completed_at_terminal (s : SysState) (hs : Reachable s) (id : String)
    (r : JobRecord) (h : lookupJob s.jobs id = some r) :
    ((r.status = Status.pending ∨ r.status = Status.running) →
      r.completed_at = none) ∧
    ((r.status = Status.completed ∨ r.status = Status.failed) →
      r.completed_at ≠ none) := by
  have hri := (reachable_stateInv hs).1 id r h
  cases hstat : r.status with
  | pending =>
      rw [recordInv, hstat] at hri
      refine ⟨fun _ => hri.1, fun hterm => ?_⟩
      rcases hterm with hc | hc <;> exact Status.noConfusion hc
  | running =>
      rw [recordInv, hstat] at hri
      refine ⟨fun _ => hri.1, fun hterm => ?_⟩
      rcases hterm with hc | hc <;> exact Status.noConfusion hc
  | completed =>
      rw [recordInv, hstat] at hri
      refine ⟨fun hx => ?_, fun _ => hri.1⟩
      rcases hx with hc | hc <;> exact Status.noConfusion hc
  | failed =>
      rw [recordInv, hstat] at hri
      refine ⟨fun hx => ?_, fun _ => hri.1⟩
      rcases hx with hc | hc <;> exact Status.noConfusion hc

/-- Witness for C7 at the reachable completed-job state: completed_at is
populated. -/
theorem completed_at_terminal_witness :
    demoDone.completed_at ≠ none :=
  (completed_at_terminal demoState2 reachable_demoState2 "job-1" demoDone
      (by decide)).2 (Or.inl rfl)

/-- C3: along every step out of a reachable state, a record present before
and after moves only along the edges pending to running and running to a
terminal status (or stays put), and a terminal record is never changed in
any field by any later step. -/
theorem status_monotonic {s s' : SysState} (hs : Reachable s) (hst : Step s s')
    (id : String) (r r' : JobRecord)
    (h : lookupJob s.jobs id = some r) (h' : lookupJob s'.jobs id = some r') :
    statusEdge r.status r'.status ∧ (isTerminal r.status → r' = r) := by
  obtain ⟨hrec, hpend, hstart, hnp, hns, hdisj⟩ := reachable_stateInv hs
  cases hst with
  | create job_id now hfresh hp hsS =>
      by_cases hid : id = job_id
      · subst hid
        rw [hfresh] at h
        exact Option.noConfusion h
      · rw [show (run_crew s.jobs job_id now).1
              = insertJob s.jobs job_id (newJobRecord job_id now) from rfl,
            lookupJob_insertJob_ne _ _ _ _ hid, h] at h'
        injection h' with hh
        subst hh
        exact ⟨Or.inl rfl, fun _ => rfl⟩
  | runStart job_id hmem =>
      rcases hl0 : lookupJob s.jobs job_id with _ | r0
      · have hjobs : (runnerSetRunning s.jobs job_id).1 = s.jobs := by
          rw [runnerSetRunning_absent _ _ hl0]
        rw [hjobs, h] at h'
        injection h' with hh
        subst hh
        exact ⟨Or.inl rfl, fun _ => rfl⟩
      · have hjobs : (runnerSetRunning s.jobs job_id).1
            = modifyJob s.jobs job_id
                (fun r => { r with status := Status.running }) := by
          rw [runnerSetRunning_present _ _ _ hl0]
        rw [hjobs] at h'
        by_cases hid : id = job_id
        · subst hid
          rw [h] at hl0
          injection hl0 with hh0
          subst hh0
          rw [lookupJob_modifyJob_self _ _ _ _ h] at h'
          injection h' with hh
          have hrp : r.status = Status.pending := hpend id hmem r h
          refine ⟨?_, ?_⟩
          · rw [← hh]
            exact Or.inr (Or.inl ⟨hrp, rfl⟩)
          · intro hterm
            rw [isTerminal, hrp] at hterm
            rcases hterm with hc | hc <;> exact Status.noConfusion hc
        · rw [lookupJob_modifyJob_ne _ _ _ _ hid, h] at h'
          injection h' with hh
          subst hh
          exact ⟨Or.inl rfl, fun _ => rfl⟩
  | runFinish job_id outcome now hmem =>
      rcases hl0 : lookupJob s.jobs job_id with _ | r0
      · have hjobs : (recordOutcome s.jobs job_id outcome now).1 = s.jobs := by
          rw [recordOutcome_absent _ _ _ _ hl0]
        rw [hjobs, h] at h'
        injection h' with hh
        subst hh
        exact ⟨Or.inl rfl, fun _ => rfl⟩
      · by_cases hid : id = job_id
        · subst hid
          rw [h] at hl0
          injection hl0 with hh0
          subst hh0
          have hrr : r.status = Status.running := hstart id hmem r h
          cases outcome with
          | ok v =>
              have hjobs : (recordOutcome s.jobs id (Except.ok v) now).1
                  = modifyJob s.jobs id (fun r =>
                      { r with status := Status.completed, result := some v.str,
                               completed_at := some now }) := by
                rw [recordOutcome_ok _ _ _ _ _ h]
              rw [hjobs, lookupJob_modifyJob_self _ _ _ _ h] at h'
              injection h' with hh
              refine ⟨?_, ?_⟩
              · rw [← hh]
                exact Or.inr (Or.inr ⟨hrr, Or.inl rfl⟩)
              · intro hterm
                rw [isTerminal, hrr] at hterm
                rcases hterm with hc | hc <;> exact Status.noConfusion hc
          | error e =>
              have hjobs : (recordOutcome s.jobs id (Except.error e) now).1
                  = modifyJob s.jobs id (fun r =>
                      { r with status := Status.failed, error := some e,
                               completed_at := some now }) := by
                rw [recordOutcome_exn _ _ _ _ _ h]
              rw [hjobs, lookupJob_modifyJob_self _ _ _ _ h] at h'
              injection h' with hh
              refine ⟨?_, ?_⟩
              · rw [← hh]
                exact Or.inr (Or.inr ⟨hrr, Or.inr rfl⟩)
              · intro hterm
                rw [isTerminal, hrr] at hterm
                rcases hterm with hc | hc <;> exact Status.noConfusion hc
        · cases outcome with
          | ok v =>
              have hjobs : (recordOutcome s.jobs job_id (Except.ok v) now).1
                  = modifyJob s.jobs job_id (fun r =>
                      { r with status := Status.completed, result := some v.str,
                               completed_at := some now }) := by
                rw [recordOutcome_ok _ _ _ _ _ hl0]
              rw [hjobs, lookupJob_modifyJob_ne _ _ _ _ hid, h] at h'
              injection h' with hh
              subst hh
              exact ⟨Or.inl rfl, fun _ => rfl⟩
          | error e =>
              have hjobs : (recordOutcome s.jobs job_id (Except.error e) now).1
                  = modifyJob s.jobs job_id (fun r =>
                      { r with status := Status.failed, error := some e,
                               completed_at := some now }) := by
                rw [recordOutcome_exn _ _ _ _ _ hl0]
              rw [hjobs, lookupJob_modifyJob_ne _ _ _ _ hid, h] at h'
              injection h' with hh
              subst hh
              exact ⟨Or.inl rfl, fun _ => rfl⟩
  | deleteStep job_id =>
      rcases hl0 : lookupJob s.jobs job_id with _ | r0
      · have hjobs : applyDelete s.jobs job_id = s.jobs :=
          applyDelete_absent _ _ hl0
        rw [hjobs, h] at h'
        injection h' with hh
        subst hh
        exact ⟨Or.inl rfl, fun _ => rfl⟩
      · have hjobs : applyDelete s.jobs job_id = eraseJob s.jobs job_id :=
          applyDelete_present _ _ _ hl0
        by_cases hid : id = job_id
        · subst hid
          rw [hjobs, lookupJob_eraseJob_self] at h'
          exact Option.noConfusion h'
        · rw [hjobs, lookupJob_eraseJob_ne _ _ _ hid, h] at h'
          injection h' with hh
          subst hh
          exact ⟨Or.inl rfl, fun _ => rfl⟩

/-- Witness for C3: the background runner starting on the reachable
one-submission state moves the stored record from pending to running,
which is an allowed edge. -/
theorem status_monotonic_witness :
    statusEdge demoRecord.status
      ({ demoRecord with status := Status.running }).status := by
  obtain ⟨h1, -⟩ := status_monotonic reachable_demoState
      (Step.runStart demoState "job-1" (by decide)) "job-1" demoRecord
      { demoRecord with status := Status.running } (by decide) (by decide)
  exact h1

end ApiServer
